import Mathlib

/-!
Shallow embedding of the HEMT layer-stack model from
`src/device_structures/hemt_structure.py` (layer/contact records, stack
operations, geometric derivations, and the two exporters), together with
theorems settling the specification's claims about it.

Thicknesses, concentrations and positions are Python floats in the source;
they are modelled as rationals (ℚ), since every operation involved is plain
field arithmetic on literals. Python exceptions are modelled with
`Except`/`Option` results.
-/

namespace HEMT

/-- The `LayerType` enumeration: the fixed closed set of layer kinds. -/
inductive LayerType where
  | substrate
  | nucleation
  | buffer
  | channel
  | spacer
  | barrier
  | cap
  | passivation
  | contact
  deriving DecidableEq, Repr

/-- The `.value` of a `LayerType` enum member (its string payload). -/
def LayerType.value : LayerType → String
  | .substrate => "substrate"
  | .nucleation => "nucleation"
  | .buffer => "buffer"
  | .channel => "channel"
  | .spacer => "spacer"
  | .barrier => "barrier"
  | .cap => "cap"
  | .passivation => "passivation"
  | .contact => "contact"

/-- Recover a `LayerType` from its string value (inverse of `LayerType.value`),
used when reconstructing records from the interchange document. -/
def layer_type_of_value : String → Option LayerType
  | "substrate" => some .substrate
  | "nucleation" => some .nucleation
  | "buffer" => some .buffer
  | "channel" => some .channel
  | "spacer" => some .spacer
  | "barrier" => some .barrier
  | "cap" => some .cap
  | "passivation" => some .passivation
  | "contact" => some .contact
  | _ => none

/-- The `Layer` dataclass: one layer of the HEMT structure.
`composition` (a Python dict) is modelled as an association list. -/
structure Layer where
  name : String
  material : String
  thickness : ℚ
  layer_type : LayerType
  doping_type : Option String
  doping_concentration : ℚ
  composition : Option (List (String × ℚ))
  deriving DecidableEq, Repr

/-- `Layer(...)` construction including `__post_init__` validation:
raises (here: returns `.error`) when `thickness <= 0` or when
`doping_concentration < 0`, in that order. -/
def make_layer (name material : String) (thickness : ℚ) (layer_type : LayerType)
    (doping_type : Option String) (doping_concentration : ℚ)
    (composition : Option (List (String × ℚ))) : Except String Layer :=
  if thickness ≤ 0 then
    Except.error ("Layer thickness must be positive: " ++ name)
  else if doping_concentration < 0 then
    Except.error ("Doping concentration cannot be negative: " ++ name)
  else
    Except.ok ⟨name, material, thickness, layer_type, doping_type,
      doping_concentration, composition⟩

/-- The `Contact` dataclass: a contact of the HEMT device. -/
structure Contact where
  name : String
  contact_type : String
  material : String
  position : ℚ × ℚ
  work_function : Option ℚ
  contact_resistance : Option ℚ
  deriving DecidableEq, Repr

/-- `Contact(...)` construction. The dataclass in the source defines no
`__post_init__` and performs no validation whatsoever, so construction
always succeeds; it is wrapped in `Except` to make "can it fail?" a
statable question. -/
def make_contact (name contact_type material : String) (position : ℚ × ℚ)
    (work_function contact_resistance : Option ℚ) : Except String Contact :=
  Except.ok ⟨name, contact_type, material, position, work_function,
    contact_resistance⟩

/-- `HEMTStructure.add_layer`: appends a layer to the stack. -/
def add_layer (layers : List Layer) (layer : Layer) : List Layer :=
  layers ++ [layer]

/-- `HEMTStructure.get_total_thickness`: sum of all layer thicknesses. -/
def get_total_thickness (layers : List Layer) : ℚ :=
  (layers.map Layer.thickness).sum

/-- `HEMTStructure.get_epi_thickness`: sum of thicknesses of all layers
whose type is not `SUBSTRATE`. -/
def get_epi_thickness (layers : List Layer) : ℚ :=
  ((layers.filter fun l => decide (l.layer_type ≠ LayerType.substrate)).map
    Layer.thickness).sum

/-- The loop body of `get_layer_boundaries`: walks a list of layers (already
reversed, i.e. top of structure first) with accumulator `z`, appending the
running sum at every non-substrate layer. -/
def boundaries_aux : List Layer → ℚ → List ℚ
  | [], _ => []
  | l :: rest, z =>
    if l.layer_type ≠ LayerType.substrate then
      (z + l.thickness) :: boundaries_aux rest (z + l.thickness)
    else
      boundaries_aux rest z

/-- `HEMTStructure.get_layer_boundaries`: starts from `[0.0]` and walks
`reversed(self.layers)` accumulating thickness, skipping the substrate. -/
def get_layer_boundaries (layers : List Layer) : List ℚ :=
  0 :: boundaries_aux layers.reverse 0

/-- The loop body of `get_2deg_position`: walks a list of layers (already
reversed, i.e. top of structure first) with accumulator `z`; cap layers add
their thickness, the first barrier adds its thickness plus 1.5 nm and stops
the walk (`break`), every other type is skipped. -/
def two_deg_aux : List Layer → ℚ → ℚ
  | [], z => z
  | l :: rest, z =>
    if l.layer_type = LayerType.cap then
      two_deg_aux rest (z + l.thickness)
    else if l.layer_type = LayerType.barrier then
      z + l.thickness + 3 / 2
    else
      two_deg_aux rest z

/-- `HEMTStructure.get_2deg_position`: approximate 2DEG depth from the top
surface in nm. -/
def get_2deg_position (layers : List Layer) : ℚ :=
  two_deg_aux layers.reverse 0

/-- `next(i for i, layer in enumerate(layers) if p(layer))` with running index
`i`: the index of the first element satisfying `p`, or `none` (Python: the
`next` call raises on an exhausted generator). -/
def find_index_aux (p : Layer → Bool) : Nat → List Layer → Option Nat
  | _, [] => none
  | i, l :: rest => if p l then some i else find_index_aux p (i + 1) rest

/-- Python `list.insert(i, x)`: insert `x` before position `i`
(appending when `i` is not less than the length). -/
def insert_at {α : Type} : Nat → α → List α → List α
  | 0, x, ys => x :: ys
  | _ + 1, x, [] => [x]
  | n + 1, x, y :: ys => y :: insert_at n x ys

/-- The `BackBarrier` layer built by `AdvancedHEMTStructure.add_back_barrier`. -/
def back_barrier (thickness doping_concentration : ℚ) : Layer :=
  ⟨"BackBarrier", "AlGaN", thickness, LayerType.buffer,
    some "p", doping_concentration, some [("Al", 5 / 100), ("Ga", 95 / 100)]⟩

/-- `AdvancedHEMTStructure.add_back_barrier`: finds the first channel-type
layer (the `next` call raises — modelled as the `"StopIteration"` error —
when no channel-type layer exists), then constructs the back-barrier via
`Layer(...)`, whose `__post_init__` validation can itself raise (that error
propagates), and only then inserts it immediately after the channel layer. -/
def add_back_barrier (layers : List Layer) (thickness doping_concentration : ℚ) :
    Except String (List Layer) :=
  match find_index_aux (fun l => decide (l.layer_type = LayerType.channel)) 0 layers with
  | none => Except.error "StopIteration"
  | some i =>
    match make_layer "BackBarrier" "AlGaN" thickness LayerType.buffer
        (some "p") doping_concentration (some [("Al", 5 / 100), ("Ga", 95 / 100)]) with
    | Except.error e => Except.error e
    | Except.ok bb => Except.ok (insert_at (i + 1) bb layers)

/-- The substrate invariant claimed by the spec: at most one substrate-type
layer, and it is the first element if present — equivalently, no layer after
the first is substrate-typed. -/
def substrate_invariant (layers : List Layer) : Bool :=
  layers.tail.all fun l => decide (l.layer_type ≠ LayerType.substrate)

/-- `HEMTStructure._build_default_structure`: the default layer stack for a
given substrate type, exactly as built by the constructor. -/
def default_layers (substrate_type : String) : List Layer :=
  let substrate_thickness : ℚ :=
    if substrate_type = "SiC" then 350000
    else if substrate_type = "Si" then 525000
    else if substrate_type = "Sapphire" then 430000
    else 300000
  let base : List Layer :=
    [⟨"Substrate", substrate_type, substrate_thickness, LayerType.substrate,
       none, 0, none⟩]
  let with_nucleation : List Layer :=
    if substrate_type ≠ "GaN" then
      add_layer base ⟨"Nucleation", "AlN", 100, LayerType.nucleation, none, 0, none⟩
    else base
  add_layer (add_layer (add_layer (add_layer (add_layer (add_layer with_nucleation
    ⟨"Buffer1", "AlGaN", 500, LayerType.buffer, none, 0,
      some [("Al", 1 / 10), ("Ga", 9 / 10)]⟩)
    ⟨"Buffer2", "GaN", 1500, LayerType.buffer, some "n", 10 ^ 16, none⟩)
    ⟨"Channel", "GaN", 300, LayerType.channel, none, 10 ^ 16, none⟩)
    ⟨"Spacer", "AlN", 1, LayerType.spacer, none, 0, none⟩)
    ⟨"Barrier", "InAlN", 15, LayerType.barrier,
      some "n", 5 * 10 ^ 18, some [("In", 17 / 100), ("Al", 83 / 100)]⟩)
    ⟨"Cap", "GaN", 2, LayerType.cap, some "n", 2 * 10 ^ 19, none⟩

/-- Sum of the thicknesses of the cap-type layers of a stack. -/
def cap_sum (layers : List Layer) : ℚ :=
  ((layers.filter fun l => decide (l.layer_type = LayerType.cap)).map
    Layer.thickness).sum

/-- Whether an `Except` result is a success (Python: no exception raised). -/
def is_ok {ε α : Type} : Except ε α → Bool
  | Except.ok _ => true
  | Except.error _ => false

/-- A small substrate-type layer used to instantiate theorems. -/
def test_sub : Layer := ⟨"Sub", "SiC", 5, LayerType.substrate, none, 0, none⟩

/-- A small buffer-type layer used to instantiate theorems. -/
def test_buf : Layer := ⟨"Buf", "GaN", 3, LayerType.buffer, none, 0, none⟩

/-- A small channel-type layer used to instantiate theorems. -/
def test_chan : Layer := ⟨"Chan", "GaN", 4, LayerType.channel, none, 0, none⟩

/-- A small cap-type layer used to instantiate theorems. -/
def test_cap : Layer := ⟨"Cap", "GaN", 2, LayerType.cap, none, 0, none⟩

/-- A small barrier-type layer used to instantiate theorems. -/
def test_bar : Layer := ⟨"Bar", "InAlN", 3, LayerType.barrier, none, 0, none⟩

/-- A small n-doped layer used to instantiate theorems. -/
def test_doped : Layer := ⟨"Doped", "GaN", 1, LayerType.buffer, some "n", 7, none⟩

/-- Splitting the total thickness along the substrate filter: the total is
the substrate-filtered thickness sum plus the epitaxial thickness. -/
theorem total_eq_sub_add_epi (layers : List Layer) :
    get_total_thickness layers =
      ((layers.filter fun l => decide (l.layer_type = LayerType.substrate)).map
        Layer.thickness).sum + get_epi_thickness layers := by
  induction layers with
  | nil => simp [get_total_thickness, get_epi_thickness]
  | cons l rest ih =>
    by_cases h : l.layer_type = LayerType.substrate <;>
      simp [get_total_thickness, get_epi_thickness, List.filter_cons, h] at ih ⊢ <;>
      rw [ih] <;> ring

/-- C1 counterexample: a `Contact` whose position pair is degenerate
(`x_start = 2 ≥ 1 = x_end`) is nevertheless constructed successfully — the
`Contact` dataclass performs no validation at all. -/
theorem claim_c1_counterexample :
    (2 : ℚ) ≥ 1 ∧ is_ok (make_contact "Gate" "schottky" "Ni/Au" (2, 1) none none) = true :=
  ⟨by norm_num, rfl⟩

/-- C1 (amended): `Contact` construction performs no position validation:
it succeeds for every position pair, whether or not `x_start < x_end`,
returning the record with all fields stored verbatim. -/
theorem claim_c1 (name contact_type material : String) (position : ℚ × ℚ)
    (work_function contact_resistance : Option ℚ) :
    make_contact name contact_type material position work_function contact_resistance =
      Except.ok ⟨name, contact_type, material, position, work_function,
        contact_resistance⟩ :=
  rfl

/-- C9: `Layer` construction fails when `thickness ≤ 0`, fails when
`doping_concentration < 0`, and succeeds (returning the record unchanged)
when `thickness > 0` and `doping_concentration = 0`. -/
theorem claim_c9 (name material : String) (t : ℚ) (lt : LayerType)
    (dt : Option String) (dc : ℚ) (comp : Option (List (String × ℚ))) :
    (t ≤ 0 → is_ok (make_layer name material t lt dt dc comp) = false) ∧
    (dc < 0 → is_ok (make_layer name material t lt dt dc comp) = false) ∧
    (0 < t → dc = 0 →
      make_layer name material t lt dt dc comp =
        Except.ok ⟨name, material, t, lt, dt, dc, comp⟩) := by
  refine ⟨fun h => ?_, fun h => ?_, fun h1 h2 => ?_⟩
  · simp [make_layer, is_ok, h]
  · by_cases ht : t ≤ 0 <;> simp [make_layer, is_ok, ht, h]
  · simp [make_layer, is_ok, not_le.mpr h1, h2]

/-- Witness for C9 at concrete inputs: thickness `-1` fails, doping `-1`
fails, thickness `1` with doping `0` succeeds. -/
theorem claim_c9_witness :
    is_ok (make_layer "L" "GaN" (-1) LayerType.buffer none 0 none) = false ∧
    is_ok (make_layer "L" "GaN" 1 LayerType.buffer none (-1) none) = false ∧
    make_layer "L" "GaN" 1 LayerType.buffer none 0 none =
      Except.ok ⟨"L", "GaN", 1, LayerType.buffer, none, 0, none⟩ :=
  ⟨(claim_c9 "L" "GaN" (-1) LayerType.buffer none 0 none).1 (by norm_num),
   (claim_c9 "L" "GaN" 1 LayerType.buffer none (-1) none).2.1 (by norm_num),
   (claim_c9 "L" "GaN" 1 LayerType.buffer none 0 none).2.2 (by norm_num) rfl⟩

/-- C6: in a stack whose substrate-type filter is exactly one layer `s`,
the total thickness is `s`'s thickness plus the epitaxial thickness. -/
theorem claim_c6 (layers : List Layer) (s : Layer)
    (h : (layers.filter fun l => decide (l.layer_type = LayerType.substrate)) = [s]) :
    get_total_thickness layers = s.thickness + get_epi_thickness layers := by
  rw [total_eq_sub_add_epi, h]
  simp

/-- Witness for C6 on the concrete stack `[test_sub, test_buf]`. -/
theorem claim_c6_witness :
    get_total_thickness [test_sub, test_buf] =
      test_sub.thickness + get_epi_thickness [test_sub, test_buf] :=
  claim_c6 [test_sub, test_buf] test_sub rfl

/-- Membership in the result of a positional insert: every element either is
the inserted one or was already in the list. -/
theorem mem_insert_at {α : Type} (a : α) :
    ∀ (n : Nat) (l : List α) (x : α), x ∈ insert_at n a l → x = a ∨ x ∈ l := by
  intro n l
  induction l generalizing n with
  | nil =>
    intro x hx
    cases n with
    | zero => simpa [insert_at] using hx
    | succ m => simpa [insert_at] using hx
  | cons y ys ih =>
    intro x hx
    cases n with
    | zero =>
      rcases (List.mem_cons).1 hx with h | h
      · exact Or.inl h
      · exact Or.inr h
    | succ m =>
      rcases (List.mem_cons).1 hx with h | h
      · exact Or.inr (h ▸ List.mem_cons_self y ys)
      · rcases ih m x h with h' | h'
        · exact Or.inl h'
        · exact Or.inr (List.mem_cons_of_mem y h')

/-- Inversion for successful `Layer` construction: the returned record holds
exactly the given fields. -/
theorem make_layer_ok_eq (name material : String) (t : ℚ) (lt : LayerType)
    (dt : Option String) (dc : ℚ) (comp : Option (List (String × ℚ))) (l : Layer)
    (h : make_layer name material t lt dt dc comp = Except.ok l) :
    l = ⟨name, material, t, lt, dt, dc, comp⟩ := by
  rw [make_layer] at h
  by_cases h1 : t ≤ 0
  · rw [if_pos h1] at h
    exact absurd h (by simp)
  · rw [if_neg h1] at h
    by_cases h2 : dc < 0
    · rw [if_pos h2] at h
      exact absurd h (by simp)
    · rw [if_neg h2] at h
      simp only [Except.ok.injEq] at h
      exact h.symm

/-- With a positive thickness and nonnegative doping, the `Layer(...)` call
inside `add_back_barrier` succeeds and returns the back-barrier record. -/
theorem make_layer_back_barrier (t d : ℚ) (ht : 0 < t) (hd : 0 ≤ d) :
    make_layer "BackBarrier" "AlGaN" t LayerType.buffer (some "p") d
      (some [("Al", 5 / 100), ("Ga", 95 / 100)]) = Except.ok (back_barrier t d) := by
  rw [make_layer, if_neg (not_le.mpr ht), if_neg (not_lt.mpr hd)]
  rfl

/-- C3 counterexample: the stack `[test_sub]` (reachable by appending
`test_sub` to the empty stack) satisfies the substrate invariant, yet
appending a second substrate-type layer with `add_layer` breaks it. -/
theorem claim_c3_counterexample :
    substrate_invariant [test_sub] = true ∧
    substrate_invariant (add_layer [test_sub] test_sub) = false := by
  constructor <;> rfl

/-- C3 (amended): appending a non-substrate-type layer preserves the
substrate invariant, and the positional insert `add_back_barrier` always
preserves it; appending a substrate-type layer can violate it. -/
theorem claim_c3 :
    (∀ (layers : List Layer) (l : Layer), substrate_invariant layers = true →
      l.layer_type ≠ LayerType.substrate →
      substrate_invariant (add_layer layers l) = true) ∧
    (∀ (layers res : List Layer) (t d : ℚ), substrate_invariant layers = true →
      add_back_barrier layers t d = Except.ok res → substrate_invariant res = true) := by
  constructor
  · intro layers l hinv hl
    cases layers with
    | nil => simp [add_layer, substrate_invariant]
    | cons h0 tl =>
      simp only [substrate_invariant, List.tail_cons, List.all_eq_true] at hinv
      simp only [add_layer, List.cons_append, substrate_invariant, List.tail_cons,
        List.all_eq_true]
      intro x hx
      rcases List.mem_append.1 hx with h | h
      · exact hinv x h
      · simp only [List.mem_singleton] at h
        subst h
        simpa using hl
  · intro layers res t d hinv habb
    cases layers with
    | nil => simp [add_back_barrier, find_index_aux] at habb
    | cons h0 tl =>
      simp only [add_back_barrier] at habb
      cases hfind : find_index_aux (fun l => decide (l.layer_type = LayerType.channel)) 0
          (h0 :: tl) with
      | none => rw [hfind] at habb; exact absurd habb (by simp)
      | some i =>
        rw [hfind] at habb
        cases hmk : make_layer "BackBarrier" "AlGaN" t LayerType.buffer (some "p") d
            (some [("Al", 5 / 100), ("Ga", 95 / 100)]) with
        | error e => rw [hmk] at habb; exact absurd habb (by simp)
        | ok bb =>
          rw [hmk] at habb
          simp only [Except.ok.injEq] at habb
          subst habb
          have hbb := make_layer_ok_eq _ _ _ _ _ _ _ bb hmk
          simp only [insert_at, substrate_invariant, List.tail_cons, List.all_eq_true]
          intro x hx
          rcases mem_insert_at _ i tl x hx with h | h
          · subst h
            rw [hbb]
            simp
          · simp only [substrate_invariant, List.tail_cons, List.all_eq_true] at hinv
            exact hinv x h

/-- Witness for C3 (amended) on a concrete stack: appending a buffer layer
to `[test_sub]` keeps the invariant. -/
theorem claim_c3_witness :
    substrate_invariant (add_layer [test_sub] test_buf) = true :=
  claim_c3.1 [test_sub] test_buf rfl (by decide)

/-- When no element satisfies the predicate, the index scan finds nothing. -/
theorem find_index_aux_none (p : Layer → Bool) :
    ∀ (ls : List Layer), (∀ x ∈ ls, p x = false) →
      ∀ i, find_index_aux p i ls = none := by
  intro ls
  induction ls with
  | nil => intro _ i; rfl
  | cons l rest ih =>
    intro h i
    simp only [find_index_aux, h l (List.mem_cons_self l rest)]
    exact ih (fun x hx => h x (List.mem_cons_of_mem l hx)) (i + 1)

/-- The index scan over `pre ++ c :: post`, with no match in `pre` and `c`
matching, returns the index of `c`. -/
theorem find_index_aux_split (p : Layer → Bool) :
    ∀ (pre : List Layer) (c : Layer) (post : List Layer),
      (∀ x ∈ pre, p x = false) → p c = true →
      ∀ i, find_index_aux p i (pre ++ c :: post) = some (i + pre.length) := by
  intro pre
  induction pre with
  | nil =>
    intro c post _ hc i
    simp [find_index_aux, hc]
  | cons y ys ih =>
    intro c post hpre hc i
    simp only [List.cons_append, find_index_aux, hpre y (List.mem_cons_self y ys),
      Bool.false_eq_true, if_false, List.append_eq]
    rw [ih c post (fun x hx => hpre x (List.mem_cons_of_mem y hx)) hc (i + 1)]
    simp only [List.length_cons]
    exact congrArg some (by omega)

/-- Inserting at position `pre.length + 1` into `pre ++ c :: post` places the
element immediately after `c`, leaving everything else in place. -/
theorem insert_at_split {α : Type} (a c : α) :
    ∀ (pre post : List α),
      insert_at (pre.length + 1) a (pre ++ c :: post) = pre ++ c :: a :: post := by
  intro pre
  induction pre with
  | nil => intro post; rfl
  | cons y ys ih =>
    intro post
    simp only [List.length_cons, List.cons_append, insert_at, List.append_eq]
    rw [ih post]

/-- C2: on a stack decomposed as `pre ++ c :: post` with `c` the first
channel-type layer, and with back-barrier arguments passing the `Layer`
validation (`thickness > 0`, `doping_concentration ≥ 0`), `add_back_barrier`
inserts the back-barrier layer immediately after `c`, leaving the relative
order of all other layers unchanged and growing the stack by exactly one;
on a stack with no channel-type layer it fails with the exception of the
exhausted `next` generator, for any arguments, before constructing the
layer. -/
theorem claim_c2 (pre : List Layer) (c : Layer) (post : List Layer) (t d : ℚ)
    (hpre : ∀ x ∈ pre, x.layer_type ≠ LayerType.channel)
    (hc : c.layer_type = LayerType.channel) (ht : 0 < t) (hd : 0 ≤ d) :
    add_back_barrier (pre ++ c :: post) t d =
      Except.ok (pre ++ c :: back_barrier t d :: post) ∧
    (pre ++ c :: back_barrier t d :: post).length = (pre ++ c :: post).length + 1 ∧
    (∀ (ls : List Layer) (t2 d2 : ℚ),
      (∀ x ∈ ls, x.layer_type ≠ LayerType.channel) →
      add_back_barrier ls t2 d2 = Except.error "StopIteration") := by
  refine ⟨?_, ?_, ?_⟩
  · simp only [add_back_barrier]
    rw [find_index_aux_split _ pre c post
      (fun x hx => by simpa using hpre x hx) (by simpa using hc) 0]
    rw [make_layer_back_barrier t d ht hd]
    simp only [Nat.zero_add]
    rw [insert_at_split]
  · simp only [List.length_append, List.length_cons]
    omega
  · intro ls t2 d2 hls
    simp only [add_back_barrier]
    rw [find_index_aux_none _ ls (fun x hx => by simpa using hls x hx) 0]

/-- Witness for C2 on the concrete stack `[test_sub, test_chan, test_buf]`
with valid back-barrier arguments (thickness 50, doping 7). -/
theorem claim_c2_witness :
    add_back_barrier [test_sub, test_chan, test_buf] 50 7 =
      Except.ok [test_sub, test_chan, back_barrier 50 7, test_buf] :=
  (claim_c2 [test_sub] test_chan [test_buf] 50 7 (by decide) rfl
    (by norm_num) (by norm_num)).1

/-- Reversal does not change the accumulated cap thickness. -/
theorem cap_sum_reverse (layers : List Layer) :
    cap_sum layers.reverse = cap_sum layers := by
  simp [cap_sum, List.sum_reverse]

/-- A walk containing no barrier-type layer accumulates exactly the
cap-type thicknesses on top of the accumulator. -/
theorem two_deg_aux_no_barrier :
    ∀ (ls : List Layer) (z : ℚ), (∀ x ∈ ls, x.layer_type ≠ LayerType.barrier) →
      two_deg_aux ls z = z + cap_sum ls := by
  intro ls
  induction ls with
  | nil => intro z _; simp [two_deg_aux, cap_sum]
  | cons l rest ih =>
    intro z h
    have hl : l.layer_type ≠ LayerType.barrier := h l (List.mem_cons_self l rest)
    have hrest : ∀ x ∈ rest, x.layer_type ≠ LayerType.barrier :=
      fun x hx => h x (List.mem_cons_of_mem l hx)
    by_cases hcap : l.layer_type = LayerType.cap
    · simp only [two_deg_aux, if_pos hcap]
      rw [ih (z + l.thickness) hrest]
      simp [cap_sum, List.filter_cons, hcap, add_assoc]
    · simp only [two_deg_aux, if_neg hcap, if_neg hl]
      rw [ih z hrest]
      simp [cap_sum, List.filter_cons, hcap]

/-- A walk whose first barrier-type layer is `b`, preceded only by
non-barrier layers, accumulates the cap thickness above `b`, then `b`'s
thickness plus the fixed 1.5 nm setback, and ignores everything below. -/
theorem two_deg_aux_barrier (b : Layer) (hb : b.layer_type = LayerType.barrier) :
    ∀ (above rest : List Layer) (z : ℚ),
      (∀ x ∈ above, x.layer_type ≠ LayerType.barrier) →
      two_deg_aux (above ++ b :: rest) z = z + cap_sum above + b.thickness + 3 / 2 := by
  intro above
  induction above with
  | nil =>
    intro rest z _
    have hbc : b.layer_type ≠ LayerType.cap := by rw [hb]; intro h; cases h
    simp only [List.nil_append, two_deg_aux, if_neg hbc, if_pos hb]
    simp [cap_sum]
  | cons l la ih =>
    intro rest z h
    have hl : l.layer_type ≠ LayerType.barrier := h l (List.mem_cons_self l la)
    have hla : ∀ x ∈ la, x.layer_type ≠ LayerType.barrier :=
      fun x hx => h x (List.mem_cons_of_mem l hx)
    by_cases hcap : l.layer_type = LayerType.cap
    · simp only [List.cons_append, two_deg_aux, if_pos hcap, List.append_eq]
      rw [ih rest (z + l.thickness) hla]
      simp [cap_sum, List.filter_cons, hcap, add_assoc]
    · simp only [List.cons_append, two_deg_aux, if_neg hcap, if_neg hl, List.append_eq]
      rw [ih rest z hla]
      simp [cap_sum, List.filter_cons, hcap]

/-- The default SiC stack, written out layer by layer. -/
theorem default_layers_SiC :
    default_layers "SiC" =
      [⟨"Substrate", "SiC", 350000, LayerType.substrate, none, 0, none⟩,
       ⟨"Nucleation", "AlN", 100, LayerType.nucleation, none, 0, none⟩,
       ⟨"Buffer1", "AlGaN", 500, LayerType.buffer, none, 0,
         some [("Al", 1 / 10), ("Ga", 9 / 10)]⟩,
       ⟨"Buffer2", "GaN", 1500, LayerType.buffer, some "n", 10 ^ 16, none⟩,
       ⟨"Channel", "GaN", 300, LayerType.channel, none, 10 ^ 16, none⟩,
       ⟨"Spacer", "AlN", 1, LayerType.spacer, none, 0, none⟩,
       ⟨"Barrier", "InAlN", 15, LayerType.barrier, some "n", 5 * 10 ^ 18,
         some [("In", 17 / 100), ("Al", 83 / 100)]⟩,
       ⟨"Cap", "GaN", 2, LayerType.cap, some "n", 2 * 10 ^ 19, none⟩] := by
  rfl

/-- C4: the 2DEG-position walk runs top-down; cap layers accumulate their
thickness, the first barrier layer adds its thickness plus the fixed 1.5 nm
and stops the walk (whatever lies below is ignored), other layer types are
skipped; with no barrier present only the cap thickness is returned; and the
default structure (cap 2 nm, barrier 15 nm) yields 18.5 nm. -/
theorem claim_c4 (bottom : List Layer) (b : Layer) (top : List Layer)
    (htop : ∀ x ∈ top, x.layer_type ≠ LayerType.barrier)
    (hb : b.layer_type = LayerType.barrier) :
    get_2deg_position (bottom ++ b :: top) = cap_sum top + b.thickness + 3 / 2 ∧
    (∀ ls : List Layer, (∀ x ∈ ls, x.layer_type ≠ LayerType.barrier) →
      get_2deg_position ls = cap_sum ls) ∧
    get_2deg_position (default_layers "SiC") = 37 / 2 := by
  refine ⟨?_, ?_, ?_⟩
  · simp only [get_2deg_position, List.reverse_append, List.reverse_cons]
    rw [List.append_assoc, List.singleton_append]
    rw [two_deg_aux_barrier b hb top.reverse bottom.reverse 0
      (fun x hx => htop x (List.mem_reverse.1 hx))]
    rw [cap_sum_reverse]
    ring
  · intro ls hls
    simp only [get_2deg_position]
    rw [two_deg_aux_no_barrier ls.reverse 0
      (fun x hx => hls x (List.mem_reverse.1 hx))]
    rw [cap_sum_reverse]
    ring
  · rw [default_layers_SiC]
    simp +decide only [get_2deg_position, two_deg_aux, List.reverse_cons,
      List.reverse_nil, List.nil_append, List.cons_append, List.append_assoc]
    norm_num

/-- Witness for C4 on the concrete stack `[test_buf, test_bar, test_cap]`:
the walk yields the cap thickness plus barrier thickness plus 1.5 nm. -/
theorem claim_c4_witness :
    get_2deg_position [test_buf, test_bar, test_cap] =
      cap_sum [test_cap] + test_bar.thickness + 3 / 2 :=
  (claim_c4 [test_buf] test_bar [test_cap] (by decide) rfl).1

/-- The boundary walk is the left scan of addition over the non-substrate
thicknesses of the walked list, seeded with the accumulator. -/
theorem boundaries_aux_eq_scanl :
    ∀ (rl : List Layer) (z : ℚ),
      z :: boundaries_aux rl z =
        List.scanl (fun a b => a + b) z
          ((rl.filter fun l => decide (l.layer_type ≠ LayerType.substrate)).map
            Layer.thickness) := by
  intro rl
  induction rl with
  | nil => intro z; simp [boundaries_aux, List.scanl_nil]
  | cons l rest ih =>
    intro z
    by_cases h : l.layer_type = LayerType.substrate
    · have hcond : ¬ l.layer_type ≠ LayerType.substrate := by simp [h]
      simp only [boundaries_aux, if_neg hcond, List.filter_cons, h]
      simpa using ih z
    · simp only [boundaries_aux, if_pos h]
      have hd : decide (l.layer_type ≠ LayerType.substrate) = true := by simp [h]
      rw [List.filter_cons, if_pos hd]
      simp only [List.map_cons, List.scanl_cons, List.singleton_append]
      rw [← ih (z + l.thickness)]

/-- A left scan of addition over nonnegative values is non-decreasing. -/
theorem chain_le_scanl :
    ∀ (ts : List ℚ) (z : ℚ), (∀ t ∈ ts, 0 ≤ t) →
      List.Chain' (fun a b => a ≤ b) (List.scanl (fun a b => a + b) z ts) := by
  intro ts
  induction ts with
  | nil => intro z _; simp [List.scanl_nil]
  | cons t ts ih =>
    intro z h
    rw [List.scanl_cons, List.singleton_append]
    rw [List.chain'_cons']
    constructor
    · intro y hy
      cases hts : ts with
      | nil =>
        rw [hts] at hy
        simp only [List.scanl_nil, List.head?_cons, Option.mem_def,
          Option.some.injEq] at hy
        subst hy
        have := h t (List.mem_cons_self t ts)
        linarith
      | cons u us =>
        rw [hts] at hy
        simp only [List.scanl_cons, List.singleton_append, List.head?_cons,
          Option.mem_def, Option.some.injEq] at hy
        subst hy
        have := h t (List.mem_cons_self t ts)
        linarith
    · exact ih (z + t) (fun x hx => h x (List.mem_cons_of_mem t hx))

/-- The last element of a left scan of addition is the seed plus the sum. -/
theorem getLast?_scanl :
    ∀ (ts : List ℚ) (z : ℚ),
      (List.scanl (fun a b => a + b) z ts).getLast? = some (z + ts.sum) := by
  intro ts
  induction ts with
  | nil => intro z; simp [List.scanl_nil]
  | cons t ts ih =>
    intro z
    rw [List.scanl_cons, List.singleton_append, List.getLast?_cons, ih (z + t)]
    simp [add_assoc]

/-- C5: on a stack of positive-thickness layers, the boundary sequence has
one more element than the number of non-substrate layers, starts at 0, is
non-decreasing, and is exactly the running-sum sequence of non-substrate
thicknesses walked from the last layer to the first. -/
theorem claim_c5 (layers : List Layer) (hpos : ∀ l ∈ layers, 0 < l.thickness) :
    (get_layer_boundaries layers).length =
      (layers.filter fun l => decide (l.layer_type ≠ LayerType.substrate)).length + 1 ∧
    (get_layer_boundaries layers).head? = some 0 ∧
    List.Chain' (fun a b => a ≤ b) (get_layer_boundaries layers) ∧
    get_layer_boundaries layers =
      List.scanl (fun a b => a + b) 0
        ((layers.reverse.filter fun l => decide (l.layer_type ≠ LayerType.substrate)).map
          Layer.thickness) := by
  have hscan := boundaries_aux_eq_scanl layers.reverse 0
  refine ⟨?_, rfl, ?_, ?_⟩
  · show (0 :: boundaries_aux layers.reverse 0).length = _
    rw [hscan, List.length_scanl, List.length_map, List.filter_reverse,
      List.length_reverse]
  · show List.Chain' (fun a b => a ≤ b) (0 :: boundaries_aux layers.reverse 0)
    rw [hscan]
    apply chain_le_scanl
    intro t ht
    simp only [List.mem_map] at ht
    obtain ⟨l, hl, rfl⟩ := ht
    exact le_of_lt (hpos l (List.mem_reverse.1 (List.mem_of_mem_filter hl)))
  · exact hscan

/-- Witness for C5 on the concrete stack `[test_sub, test_cap]`. -/
theorem claim_c5_witness :
    (get_layer_boundaries [test_sub, test_cap]).head? = some 0 :=
  (claim_c5 [test_sub, test_cap] (by decide)).2.1

/-- C10: the last boundary value equals the epitaxial thickness — both are
the sum of the non-substrate layer thicknesses. -/
theorem claim_c10 (layers : List Layer) :
    (get_layer_boundaries layers).getLast? = some (get_epi_thickness layers) := by
  show (0 :: boundaries_aux layers.reverse 0).getLast? = _
  rw [boundaries_aux_eq_scanl layers.reverse 0, getLast?_scanl]
  rw [List.filter_reverse, List.map_reverse, List.sum_reverse]
  simp [get_epi_thickness]

/-- One doping directive of the TCAD-script export: region index, region
name, dopant species string, and the concentration that gets formatted. -/
structure DopingDirective where
  idx : Nat
  region : String
  species : String
  conc : ℚ
  deriving DecidableEq, Repr

/-- The directive emitted for layer `l` at enumeration index `i`:
`"donor"` when `doping_type == 'n'`, `"acceptor"` for anything else. -/
def doping_directive (i : Nat) (l : Layer) : DopingDirective :=
  ⟨i, l.name, if l.doping_type = some "n" then "donor" else "acceptor",
    l.doping_concentration⟩

/-- The doping-profile loop of `export_sentaurus_structure`: enumerate the
layers from index `i`, emitting one directive per layer whose
`doping_concentration` is strictly positive. -/
def doping_aux : Nat → List Layer → List DopingDirective
  | _, [] => []
  | i, l :: rest =>
    if 0 < l.doping_concentration then
      doping_directive i l :: doping_aux (i + 1) rest
    else
      doping_aux (i + 1) rest

/-- The doping directives of the TCAD-script export, enumerated from 0. -/
def doping_directives (layers : List Layer) : List DopingDirective :=
  doping_aux 0 layers

/-- Soundness of the doping loop: every emitted directive comes from a
strictly-positively-doped layer at its enumeration index. -/
theorem doping_aux_sound :
    ∀ (layers : List Layer) (n : Nat) (d : DopingDirective),
      d ∈ doping_aux n layers →
      ∃ j l, layers[j]? = some l ∧ 0 < l.doping_concentration ∧
        d = doping_directive (n + j) l := by
  intro layers
  induction layers with
  | nil => intro n d hd; simp [doping_aux] at hd
  | cons l rest ih =>
    intro n d hd
    by_cases h : 0 < l.doping_concentration
    · rw [doping_aux, if_pos h] at hd
      rcases (List.mem_cons).1 hd with h0 | h0
      · exact ⟨0, l, by simp, h, by simpa using h0⟩
      · obtain ⟨j, l', hget, hpos, hdir⟩ := ih (n + 1) d h0
        exact ⟨j + 1, l', by simpa using hget, hpos, by rw [hdir]; congr 1; omega⟩
    · rw [doping_aux, if_neg h] at hd
      obtain ⟨j, l', hget, hpos, hdir⟩ := ih (n + 1) d hd
      exact ⟨j + 1, l', by simpa using hget, hpos, by rw [hdir]; congr 1; omega⟩

/-- Completeness of the doping loop: every strictly-positively-doped layer
gets its directive emitted. -/
theorem doping_aux_complete :
    ∀ (layers : List Layer) (n i : Nat) (l : Layer),
      layers[i]? = some l → 0 < l.doping_concentration →
      doping_directive (n + i) l ∈ doping_aux n layers := by
  intro layers
  induction layers with
  | nil => intro n i l hget; simp at hget
  | cons x rest ih =>
    intro n i l hget hpos
    cases i with
    | zero =>
      simp only [List.getElem?_cons_zero, Option.some.injEq] at hget
      subst hget
      rw [doping_aux, if_pos hpos]
      exact List.mem_cons_self _ _
    | succ i' =>
      simp only [List.getElem?_cons_succ] at hget
      have hmem := ih (n + 1) i' l hget hpos
      have harith : n + 1 + i' = n + (i' + 1) := by omega
      rw [harith] at hmem
      by_cases h : 0 < x.doping_concentration
      · rw [doping_aux, if_pos h]
        exact List.mem_cons_of_mem _ hmem
      · rw [doping_aux, if_neg h]
        exact hmem

/-- Every directive emitted from start index `n` has index at least `n`. -/
theorem doping_aux_idx_ge :
    ∀ (layers : List Layer) (n : Nat) (d : DopingDirective),
      d ∈ doping_aux n layers → n ≤ d.idx := by
  intro layers n d hd
  obtain ⟨j, l, _, _, hdir⟩ := doping_aux_sound layers n d hd
  rw [hdir]
  simp [doping_directive]

/-- The enumeration indices of the emitted directives strictly increase. -/
theorem doping_aux_pairwise :
    ∀ (layers : List Layer) (n : Nat),
      (doping_aux n layers).Pairwise (fun a b => a.idx < b.idx) := by
  intro layers
  induction layers with
  | nil => intro n; simp [doping_aux]
  | cons l rest ih =>
    intro n
    by_cases h : 0 < l.doping_concentration
    · rw [doping_aux, if_pos h]
      refine List.Pairwise.cons ?_ (ih (n + 1))
      intro d hd
      have := doping_aux_idx_ge rest (n + 1) d hd
      simp only [doping_directive]
      omega
    · rw [doping_aux, if_neg h]
      exact ih (n + 1)

/-- The doping loop emits as many directives as there are layers with
strictly positive doping concentration. -/
theorem doping_aux_length :
    ∀ (layers : List Layer) (n : Nat),
      (doping_aux n layers).length =
        (layers.filter fun l => decide (0 < l.doping_concentration)).length := by
  intro layers
  induction layers with
  | nil => intro n; rfl
  | cons l rest ih =>
    intro n
    by_cases h : 0 < l.doping_concentration
    · have hd : decide (0 < l.doping_concentration) = true := by simp [h]
      rw [doping_aux, if_pos h, List.filter_cons, if_pos hd]
      simp [ih (n + 1)]
    · have hd : ¬ decide (0 < l.doping_concentration) = true := by simp [h]
      rw [doping_aux, if_neg h, List.filter_cons, if_neg hd]
      exact ih (n + 1)

/-- C8: the TCAD-script export emits exactly one doping directive per layer
with strictly positive doping concentration and none for undoped layers:
the directive count matches the positively-doped layer count, every
directive carries the name and concentration of the layer at its index and
classifies `doping_type = 'n'` as donor and anything else as acceptor,
every positively-doped layer's directive is present, and directive indices
strictly increase (so no layer gets two). -/
theorem claim_c8 (layers : List Layer) :
    (doping_directives layers).length =
      (layers.filter fun l => decide (0 < l.doping_concentration)).length ∧
    (∀ d ∈ doping_directives layers, ∃ l, layers[d.idx]? = some l ∧
      0 < l.doping_concentration ∧ d.region = l.name ∧
      d.conc = l.doping_concentration ∧
      d.species = if l.doping_type = some "n" then "donor" else "acceptor") ∧
    (∀ (i : Nat) (l : Layer), layers[i]? = some l → 0 < l.doping_concentration →
      doping_directive i l ∈ doping_directives layers) ∧
    (doping_directives layers).Pairwise (fun a b => a.idx < b.idx) := by
  refine ⟨doping_aux_length layers 0, ?_, ?_, doping_aux_pairwise layers 0⟩
  · intro d hd
    obtain ⟨j, l, hget, hpos, hdir⟩ := doping_aux_sound layers 0 d hd
    rw [Nat.zero_add] at hdir
    refine ⟨l, ?_, hpos, ?_, ?_, ?_⟩ <;> rw [hdir] <;>
      simp [doping_directive, hget]
  · intro i l hget hpos
    have := doping_aux_complete layers 0 i l hget hpos
    rwa [Nat.zero_add] at this

/-- Witness for C8 on the concrete stack `[test_sub, test_doped]`: the doped
layer at index 1 gets its directive emitted. -/
theorem claim_c8_witness :
    doping_directive 1 test_doped ∈ doping_directives [test_sub, test_doped] :=
  (claim_c8 [test_sub, test_doped]).2.2.1 1 test_doped rfl (by norm_num [test_doped])

/-- The `device_dimensions` mapping of `HEMTStructure.__init__`, as a record
of its five named parameters (μm). -/
structure DeviceDimensions where
  gate_length : ℚ
  gate_width : ℚ
  source_drain_spacing : ℚ
  field_plate_length : ℚ
  device_length : ℚ
  deriving DecidableEq, Repr

/-- The default device dimensions set by the constructor. -/
def default_dimensions : DeviceDimensions := ⟨1 / 4, 100, 4, 1 / 2, 10⟩

/-- One entry of the `layers` list in the interchange document written by
`export_python_mesh`; `type_value` holds the `'type'` key
(`layer.layer_type.value`), and `none` in an optional field is the explicit
JSON `null`. -/
structure LayerDict where
  name : String
  material : String
  thickness : ℚ
  type_value : String
  doping_type : Option String
  doping_concentration : ℚ
  composition : Option (List (String × ℚ))
  deriving DecidableEq, Repr

/-- One entry of the `contacts` list in the interchange document;
`type_value` holds the `'type'` key (`contact.contact_type`). -/
structure ContactDict where
  name : String
  type_value : String
  material : String
  position : ℚ × ℚ
  work_function : Option ℚ
  contact_resistance : Option ℚ
  deriving DecidableEq, Repr

/-- The top-level interchange document written by `export_python_mesh`:
substrate type, the dimension mapping, and the ordered layer and contact
records. -/
structure StructureDict where
  substrate_type : String
  dimensions : DeviceDimensions
  layers : List LayerDict
  contacts : List ContactDict
  deriving DecidableEq, Repr

/-- The `layer_dict` built for one layer by `export_python_mesh`: every
`Layer` field in order, the enum stored by its string value. -/
def layer_to_dict (l : Layer) : LayerDict :=
  ⟨l.name, l.material, l.thickness, l.layer_type.value, l.doping_type,
    l.doping_concentration, l.composition⟩

/-- The `contact_dict` built for one contact by `export_python_mesh`:
every `Contact` field in order. -/
def contact_to_dict (c : Contact) : ContactDict :=
  ⟨c.name, c.contact_type, c.material, c.position, c.work_function,
    c.contact_resistance⟩

/-- `HEMTStructure.export_python_mesh`: the interchange document for the
whole structure (the file write itself is I/O and not modelled). -/
def export_python_mesh (substrate_type : String) (dims : DeviceDimensions)
    (layers : List Layer) (contacts : List Contact) : StructureDict :=
  ⟨substrate_type, dims, layers.map layer_to_dict, contacts.map contact_to_dict⟩

/-- Reconstruction of a `Layer` record from its document entry: every field
is read back verbatim, the layer type by parsing its string value. -/
def dict_to_layer (d : LayerDict) : Option Layer :=
  match layer_type_of_value d.type_value with
  | none => none
  | some t => some ⟨d.name, d.material, d.thickness, t, d.doping_type,
      d.doping_concentration, d.composition⟩

/-- Reconstruction of a `Contact` record from its document entry. -/
def dict_to_contact (d : ContactDict) : Contact :=
  ⟨d.name, d.type_value, d.material, d.position, d.work_function,
    d.contact_resistance⟩

/-- Reconstruction of the ordered layer list from the document, failing if
any entry carries an unknown type string. -/
def reconstruct_layers : List LayerDict → Option (List Layer)
  | [] => some []
  | d :: rest =>
    match dict_to_layer d, reconstruct_layers rest with
    | some l, some ls => some (l :: ls)
    | _, _ => none

/-- Parsing a `LayerType`'s string value returns that `LayerType`. -/
theorem layer_type_value_roundtrip (t : LayerType) :
    layer_type_of_value t.value = some t := by
  cases t <;> rfl

/-- A layer's document entry reconstructs to the layer itself. -/
theorem layer_roundtrip (l : Layer) : dict_to_layer (layer_to_dict l) = some l := by
  simp only [dict_to_layer, layer_to_dict, layer_type_value_roundtrip]

/-- A contact's document entry reconstructs to the contact itself. -/
theorem contact_roundtrip (c : Contact) : dict_to_contact (contact_to_dict c) = c :=
  rfl

/-- C7: the interchange-document export records every `Layer` and `Contact`
field in order (absent optionals as explicit `none`/null) and loses
nothing: reconstructing the layer and contact records from the document
returns the original lists field-for-field, and the substrate type and
dimension mapping are stored verbatim. Derived geometry is not part of the
document. -/
theorem claim_c7 (st : String) (dims : DeviceDimensions)
    (layers : List Layer) (contacts : List Contact) :
    reconstruct_layers (export_python_mesh st dims layers contacts).layers =
      some layers ∧
    (export_python_mesh st dims layers contacts).contacts.map dict_to_contact =
      contacts ∧
    (export_python_mesh st dims layers contacts).substrate_type = st ∧
    (export_python_mesh st dims layers contacts).dimensions = dims := by
  refine ⟨?_, ?_, rfl, rfl⟩
  · show reconstruct_layers (layers.map layer_to_dict) = some layers
    induction layers with
    | nil => rfl
    | cons l rest ih =>
      simp only [List.map_cons, reconstruct_layers, layer_roundtrip, ih]
  · show (contacts.map contact_to_dict).map dict_to_contact = contacts
    induction contacts with
    | nil => rfl
    | cons c rest ih =>
      simp only [List.map_cons, contact_roundtrip, ih]

end HEMT
